import Mathlib

/-!
Verification of the DGE-DSIM core (src/graph_sim.py): the GraphSim model
feature-width computation, the histogram similarity feature, the regression
head, and the GraphSimTrainer orchestrator (batch processing, validation
checkpointing, epoch loss history, precision-at-k block accumulation).

Machine floats are modelled over the rationals, and the real-valued
activation functions of the regression head over the reals.
-/

namespace DGEDSIM

/-- The configuration fields of src/graph_sim.py that affect the model
architecture (a subset of the full argument object). -/
structure Args where
  histogram : Bool
  bins : Nat
  tensor_network : Bool
  tensor_neurons : Nat
  attention_module : Bool
  node_graph_matching : Bool
  hidden_size : Nat
deriving DecidableEq, Repr

/-- GraphSim.calculate_bottleneck_features (graph_sim.py lines 23-33):
the tensor-layer term tensor_neurons * 2 is added unconditionally; bins is
added when histogram is enabled; hidden_size * 4 is added when
node_graph_matching is enabled. -/
def calculate_bottleneck_features (a : Args) : Nat :=
  let tensor_layer_out := a.tensor_neurons * 2
  let feature_count := if a.histogram then tensor_layer_out + a.bins else tensor_layer_out
  if a.node_graph_matching then feature_count + a.hidden_size * 4 else feature_count

/-- The fused feature width as the spec describes it (spec section 4.6):
base 2 * tensor_neurons only if the tensor network is enabled, else 0;
plus bins if histogram enabled; plus 4 * hidden_size if node-graph-matching
enabled. -/
def specFeatureWidth (a : Args) : Nat :=
  (if a.tensor_network then 2 * a.tensor_neurons else 0) +
  (if a.histogram then a.bins else 0) +
  (if a.node_graph_matching then 4 * a.hidden_size else 0)

/-- Width of the fused feature vector actually built by GraphSim.forward
(graph_sim.py lines 70-99).  With the tensor network enabled the score
vector has width 2 * tensor_neurons (node scores and edge scores
concatenated), extended by the histogram bins when enabled; with the tensor
network disabled the code uses the histogram alone, and when the histogram
is also disabled the local variable hist is unbound (a NameError), modelled
as none.  Node-graph-matching appends a 4 * hidden_size feature in either
case. -/
def forwardFusedWidth (a : Args) : Option Nat :=
  let core : Option Nat :=
    if a.tensor_network then
      some (if a.histogram then 2 * a.tensor_neurons + a.bins else 2 * a.tensor_neurons)
    else
      if a.histogram then some a.bins else none
  core.map (fun w => if a.node_graph_matching then w + a.hidden_size * 4 else w)

/-! ## Histogram similarity feature (GraphSim.calculate_histogram) -/

/-- The flattened entries of torch.mm(f1, f2t) where f1 is the n1 x d node
embedding matrix of graph 1 and f2t is the (already transposed) d x n2 node
embedding matrix of graph 2: all n1 * n2 pairwise inner products, in row
major order (graph_sim.py lines 56-57). -/
def mmScores (n1 n2 d : Nat) (A B : Nat → Nat → ℚ) : List ℚ :=
  ((List.range n1).map (fun i =>
    (List.range n2).map (fun j => ∑ k ∈ Finset.range d, A i k * B k j))).flatten

/-- The bin index torch.histc assigns to value v given data range [lo, hi]
and a bin count: when lo = hi the range is widened to [lo - 1, hi + 1];
values are placed by linear interpolation, the top value into the last
bin. -/
def binIdx (lo hi : ℚ) (bins : Nat) (v : ℚ) : Nat :=
  let lo2 := if lo = hi then lo - 1 else lo
  let hi2 := if lo = hi then hi + 1 else hi
  min (bins - 1) (Int.toNat (Int.floor ((v - lo2) / (hi2 - lo2) * bins)))

/-- torch.histc with default min = max = 0: the data minimum and maximum
are used as the range.  On an empty tensor the min/max reduction fails at
runtime, modelled as none. -/
def histc (bins : Nat) (xs : List ℚ) : Option (List Nat) :=
  match xs with
  | [] => none
  | x :: rest =>
    let lo := rest.foldl min x
    let hi := rest.foldl max x
    some ((List.range bins).map (fun b => xs.countP (fun v => binIdx lo hi bins v == b)))

/-- GraphSim.calculate_histogram (graph_sim.py lines 55-61): inner-product
matrix, flattened, binned by torch.histc, then divided by the sum of the
histogram counts. -/
def calculate_histogram (n1 n2 d bins : Nat) (A B : Nat → Nat → ℚ) : Option (List ℚ) :=
  (histc bins (mmScores n1 n2 d A B)).map
    (fun h => h.map (fun c : Nat => (c : ℚ) / ((h.sum : ℚ))))

/-! ## Batch processing (GraphSimTrainer.process_batch) -/

/-- Counters recording how many times the optimizer operations ran. -/
structure OptimizerLog where
  zeroGradCalls : Nat
  backwardCalls : Nat
  stepCalls : Nat
deriving DecidableEq, Repr

/-- torch.nn.functional.mse_loss on two scalars: the squared difference. -/
def mseLoss (target prediction : ℚ) : ℚ := (target - prediction) ^ 2

/-- GraphSimTrainer.process_batch (graph_sim.py lines 134-145): zero the
gradients, accumulate the per-pair mse losses over the batch into a single
scalar by a running sum starting at 0, call backward once, apply one
optimizer step, and return the accumulated loss value. -/
def process_batch {Pair : Type} (target prediction : Pair → ℚ)
    (batch : List Pair) (log : OptimizerLog) : OptimizerLog × ℚ :=
  let log1 := { log with zeroGradCalls := log.zeroGradCalls + 1 }
  let losses := batch.foldl (fun acc p => acc + mseLoss (target p) (prediction p)) 0
  let log2 := { log1 with backwardCalls := log1.backwardCalls + 1 }
  let log3 := { log2 with stepCalls := log2.stepCalls + 1 }
  (log3, losses)

/-! ## Validation and checkpointing (GraphSimTrainer.validate / train) -/

/-- The trainer state mutated by validate: min_error, best_epoch_index,
epoch_loss_list, and the contents of the file at best_model_path (none
when no file exists).  P is the type of model parameter snapshots. -/
structure TrainState (P : Type) where
  minError : ℚ
  bestEpochIndex : Nat
  epochLossList : List ℚ
  bestFile : Option P
deriving DecidableEq, Repr

/-- The state set up at the start of GraphSimTrainer.train (lines 178-181):
min_error = 100, best_epoch_index = 0, empty epoch loss list; the file at
best_model_path starts as whatever was on disk. -/
def initState {P : Type} (initFile : Option P) : TrainState P :=
  { minError := 100, bestEpochIndex := 0, epochLossList := [], bestFile := initFile }

/-- One call of GraphSimTrainer.validate at epoch i with validation error e
(graph_sim.py lines 147-166): append e to epoch_loss_list; if e < min_error,
record the epoch index, update min_error, and save the current parameters
(paramsAt i) to best_model_path. -/
def validateStep {P : Type} (paramsAt : Nat → P) (i : Nat) (e : ℚ)
    (st : TrainState P) : TrainState P :=
  let st1 := { st with epochLossList := st.epochLossList ++ [e] }
  if e < st1.minError then
    { st1 with bestEpochIndex := i, minError := e, bestFile := some (paramsAt i) }
  else st1

/-- The per-epoch loop of GraphSimTrainer.train with validation enabled:
epoch i trains (leaving parameters paramsAt i) and then validates with
error taken from the list. -/
def runEpochs {P : Type} (paramsAt : Nat → P) : Nat → List ℚ → TrainState P → TrainState P
  | _, [], st => st
  | i, e :: rest, st => runEpochs paramsAt (i + 1) rest (validateStep paramsAt i e st)

/-- The trainer state reached after running all epochs with validation
enabled, starting from the freshly initialized state. -/
def finalState {P : Type} (paramsAt : Nat → P) (errors : List ℚ)
    (initFile : Option P) : TrainState P :=
  runEpochs paramsAt 0 errors (initState initFile)

/-- GraphSimTrainer.train (graph_sim.py lines 168-198), abstracted over the
sequence of per-epoch validation errors and the per-epoch parameter
snapshots: run the epochs, and if validation is enabled reload the
parameters from best_model_path at the end (torch.load raises when the file
does not exist, modelled as an error).  Returns the final live parameters
together with the final trainer state. -/
def trainRun {P : Type} (paramsAt : Nat → P) (initParams : P) (errors : List ℚ)
    (validate : Bool) (initFile : Option P) : Except Unit (P × TrainState P) :=
  if validate then
    match (finalState paramsAt errors initFile).bestFile with
    | some p => Except.ok (p, finalState paramsAt errors initFile)
    | none => Except.error ()
  else
    Except.ok ((if errors.length = 0 then initParams else paramsAt (errors.length - 1)),
               initState initFile)

/-! ## Test loop block accumulation (GraphSimTrainer.test) -/

/-- The accumulators of GraphSimTrainer.test: the temp_gt / temp_pre block
buffers and the lists of blocks handed to prec_at_ks with k = 10 and
k = 20 (each recorded as the ground-truth/prediction block pair). -/
structure TestAcc where
  tempGT : List ℚ
  tempPred : List ℚ
  prec10 : List (List ℚ × List ℚ)
  prec20 : List (List ℚ × List ℚ)
deriving DecidableEq, Repr

/-- The body of the test loop at a given enumerate index (graph_sim.py
lines 214-230): append the target and prediction to the block buffers;
when (index + 1) is a multiple of the number of test graphs B, record the
completed block for precision-at-10 and precision-at-20 and clear the
buffers. -/
def testStep (B : Nat) (acc : TestAcc) (index : Nat) (gt pred : ℚ) : TestAcc :=
  let acc1 := { acc with tempGT := acc.tempGT ++ [gt], tempPred := acc.tempPred ++ [pred] }
  if (index + 1) % B == 0 then
    { tempGT := [], tempPred := [],
      prec10 := acc1.prec10 ++ [(acc1.tempGT, acc1.tempPred)],
      prec20 := acc1.prec20 ++ [(acc1.tempGT, acc1.tempPred)] }
  else acc1

/-- The enumerate loop of GraphSimTrainer.test over the (target,
prediction) stream. -/
def testLoop (B : Nat) : Nat → List (ℚ × ℚ) → TestAcc → TestAcc
  | _, [], acc => acc
  | i, p :: rest, acc => testLoop B (i + 1) rest (testStep B acc i p.1 p.2)

/-- The initial (empty) test accumulator state (graph_sim.py lines
209-212). -/
def initTestAcc : TestAcc := { tempGT := [], tempPred := [], prec10 := [], prec20 := [] }

/-- GraphSimTrainer.test restricted to its block accumulation behaviour:
with zero test graphs the modulus operation raises ZeroDivisionError;
otherwise the loop runs to completion with no divisibility check. -/
def testRun (B : Nat) (pairs : List (ℚ × ℚ)) : Except String TestAcc :=
  if B = 0 then Except.error "ZeroDivisionError"
  else Except.ok (testLoop B 0 pairs initTestAcc)

/-! ## Regression head (GraphSim.forward, lines 101-103) -/

noncomputable section

/-- Dot product of two real vectors (truncating at the shorter one, as the
fixed layer shapes always agree in the source). -/
def dotR : List ℝ → List ℝ → ℝ
  | [], _ => 0
  | _, [] => 0
  | a :: as, b :: bs => a * b + dotR as bs

/-- A fully connected layer: one output per (weight-row, bias) pair. -/
def linearLayer (W : List (List ℝ)) (b : List ℝ) (x : List ℝ) : List ℝ :=
  (W.zip b).map (fun wb => dotR wb.1 x + wb.2)

/-- torch.nn.functional.relu on a scalar. -/
def relu (x : ℝ) : ℝ := max x 0

/-- torch.sigmoid. -/
def sigmoid (x : ℝ) : ℝ := 1 / (1 + Real.exp (-x))

/-- The regression head of GraphSim.forward (graph_sim.py lines 101-102):
scores = relu(fully_connected_first(scores)); score =
sigmoid(scoring_layer(scores)). -/
def graphSimScore (W1 : List (List ℝ)) (b1 : List ℝ) (w2 : List ℝ) (b2 : ℝ)
    (scores : List ℝ) : ℝ :=
  sigmoid (dotR w2 ((linearLayer W1 b1 scores).map relu) + b2)

end

/-! ## Helper lemmas -/

lemma validateStep_epochLossList {P : Type} (pa : Nat → P) (i : Nat) (e : ℚ)
    (st : TrainState P) :
    (validateStep pa i e st).epochLossList = st.epochLossList ++ [e] := by
  unfold validateStep
  dsimp only
  split <;> rfl

lemma runEpochs_cons {P : Type} (pa : Nat → P) (i : Nat) (e : ℚ) (rest : List ℚ)
    (st : TrainState P) :
    runEpochs pa i (e :: rest) st = runEpochs pa (i + 1) rest (validateStep pa i e st) := rfl

lemma runEpochs_nil {P : Type} (pa : Nat → P) (i : Nat) (st : TrainState P) :
    runEpochs pa i [] st = st := rfl

lemma runEpochs_epochLossList {P : Type} (pa : Nat → P) :
    ∀ (es : List ℚ) (i : Nat) (st : TrainState P),
      (runEpochs pa i es st).epochLossList = st.epochLossList ++ es := by
  intro es
  induction es with
  | nil => intro i st; simp [runEpochs_nil]
  | cons e rest ih =>
    intro i st
    rw [runEpochs_cons, ih, validateStep_epochLossList]
    simp

lemma validateStep_of_lt {P : Type} (pa : Nat → P) (i : Nat) (e : ℚ)
    (st : TrainState P) (h : e < st.minError) :
    validateStep pa i e st =
      { minError := e, bestEpochIndex := i,
        epochLossList := st.epochLossList ++ [e], bestFile := some (pa i) } := by
  unfold validateStep
  dsimp only
  rw [if_pos h]

lemma validateStep_of_ge {P : Type} (pa : Nat → P) (i : Nat) (e : ℚ)
    (st : TrainState P) (h : ¬ e < st.minError) :
    validateStep pa i e st =
      { minError := st.minError, bestEpochIndex := st.bestEpochIndex,
        epochLossList := st.epochLossList ++ [e], bestFile := st.bestFile } := by
  unfold validateStep
  dsimp only
  rw [if_neg h]

lemma runEpochs_no_update {P : Type} (pa : Nat → P) :
    ∀ (es : List ℚ) (i : Nat) (st : TrainState P), (∀ e ∈ es, st.minError ≤ e) →
      runEpochs pa i es st =
        { minError := st.minError, bestEpochIndex := st.bestEpochIndex,
          epochLossList := st.epochLossList ++ es, bestFile := st.bestFile } := by
  intro es
  induction es with
  | nil => intro i st _; simp [runEpochs_nil]
  | cons e rest ih =>
    intro i st h
    have he : ¬ e < st.minError := not_lt.mpr (h e (List.mem_cons_self e rest))
    rw [runEpochs_cons, validateStep_of_ge pa i e st he,
        ih (i + 1) ⟨st.minError, st.bestEpochIndex, st.epochLossList ++ [e], st.bestFile⟩
          (fun x hx => h x (List.mem_cons_of_mem e hx))]
    simp

/-- The core invariant of the best-checkpoint selection: if some error in
the remaining list beats the current min_error, the loop ends having
recorded the position of the first minimum of the remaining errors. -/
lemma runEpochs_first_argmin {P : Type} (pa : Nat → P) :
    ∀ (es : List ℚ) (i : Nat) (st : TrainState P), (∃ e ∈ es, e < st.minError) →
      ∃ k, k < es.length ∧
        (runEpochs pa i es st).bestEpochIndex = i + k ∧
        (runEpochs pa i es st).bestFile = some (pa (i + k)) ∧
        (runEpochs pa i es st).minError = es.getD k 0 ∧
        es.getD k 0 < st.minError ∧
        (∀ j, j < es.length → es.getD k 0 ≤ es.getD j 0) ∧
        (∀ j, j < k → es.getD k 0 < es.getD j 0) := by
  intro es
  induction es with
  | nil => intro i st h; simp at h
  | cons e rest ih =>
    intro i st h
    by_cases he : e < st.minError
    · have hstep := validateStep_of_lt pa i e st he
      have hm1 : (validateStep pa i e st).minError = e := by rw [hstep]
      by_cases h2 : ∃ x ∈ rest, x < e
      · obtain ⟨k, hklen, hidx, hfile, hmin, hlt, hle, hstrict⟩ :=
          ih (i + 1) (validateStep pa i e st) (by rw [hm1]; exact h2)
        rw [hm1] at hlt
        refine ⟨k + 1, by simpa using Nat.succ_lt_succ hklen, ?_, ?_, ?_, ?_, ?_, ?_⟩
        · rw [runEpochs_cons, hidx]; omega
        · rw [runEpochs_cons, hfile]
          have : i + 1 + k = i + (k + 1) := by omega
          rw [this]
        · rw [runEpochs_cons, hmin, List.getD_cons_succ]
        · rw [List.getD_cons_succ]; exact lt_trans hlt he
        · intro j hj
          cases j with
          | zero =>
            rw [List.getD_cons_succ, List.getD_cons_zero]
            exact le_of_lt hlt
          | succ j' =>
            rw [List.getD_cons_succ, List.getD_cons_succ]
            exact hle j' (by simpa using Nat.lt_of_succ_lt_succ hj)
        · intro j hj
          cases j with
          | zero => rw [List.getD_cons_succ, List.getD_cons_zero]; exact hlt
          | succ j' =>
            rw [List.getD_cons_succ, List.getD_cons_succ]
            exact hstrict j' (Nat.lt_of_succ_lt_succ hj)
      · push_neg at h2
        have hrest :=
          runEpochs_no_update pa rest (i + 1) (validateStep pa i e st)
            (fun x hx => by rw [hm1]; exact h2 x hx)
        refine ⟨0, by simp, ?_, ?_, ?_, ?_, ?_, ?_⟩
        · rw [runEpochs_cons, hrest, hstep]; rfl
        · rw [runEpochs_cons, hrest, hstep]; rfl
        · rw [runEpochs_cons, hrest, hstep, List.getD_cons_zero]
        · rw [List.getD_cons_zero]; exact he
        · intro j hj
          cases j with
          | zero => rw [List.getD_cons_zero]
          | succ j' =>
            rw [List.getD_cons_zero, List.getD_cons_succ]
            have hj' : j' < rest.length := by simpa using Nat.lt_of_succ_lt_succ hj
            rw [List.getD_eq_getElem rest 0 hj']
            exact h2 _ (List.getElem_mem hj')
        · intro j hj; exact absurd hj (Nat.not_lt_zero j)
    · have hstep := validateStep_of_ge pa i e st he
      have hm1 : (validateStep pa i e st).minError = st.minError := by rw [hstep]
      obtain ⟨x, hx, hxlt⟩ := h
      have hxrest : x ∈ rest := by
        rcases List.mem_cons.mp hx with hxe | hxr
        · exact absurd (hxe ▸ hxlt) he
        · exact hxr
      obtain ⟨k, hklen, hidx, hfile, hmin, hlt, hle, hstrict⟩ :=
        ih (i + 1) (validateStep pa i e st) ⟨x, hxrest, by rw [hm1]; exact hxlt⟩
      rw [hm1] at hlt
      have hmine : st.minError ≤ e := not_lt.mp he
      refine ⟨k + 1, by simpa using Nat.succ_lt_succ hklen, ?_, ?_, ?_, ?_, ?_, ?_⟩
      · rw [runEpochs_cons, hidx]; omega
      · rw [runEpochs_cons, hfile]
        have : i + 1 + k = i + (k + 1) := by omega
        rw [this]
      · rw [runEpochs_cons, hmin, List.getD_cons_succ]
      · rw [List.getD_cons_succ]; exact hlt
      · intro j hj
        cases j with
        | zero =>
          rw [List.getD_cons_succ, List.getD_cons_zero]
          exact le_of_lt (lt_of_lt_of_le hlt hmine)
        | succ j' =>
          rw [List.getD_cons_succ, List.getD_cons_succ]
          exact hle j' (by simpa using Nat.lt_of_succ_lt_succ hj)
      · intro j hj
        cases j with
        | zero =>
          rw [List.getD_cons_succ, List.getD_cons_zero]
          exact lt_of_lt_of_le hlt hmine
        | succ j' =>
          rw [List.getD_cons_succ, List.getD_cons_succ]
          exact hstrict j' (Nat.lt_of_succ_lt_succ hj)

lemma foldl_add_eq_sum {Pair : Type} (f : Pair → ℚ) :
    ∀ (l : List Pair) (a : ℚ), l.foldl (fun acc p => acc + f p) a = a + (l.map f).sum := by
  intro l
  induction l with
  | nil => intro a; simp
  | cons x xs ih => intro a; simp [ih, add_assoc]

lemma sigmoid_pos (x : ℝ) : 0 < sigmoid x := by
  unfold sigmoid
  have h : (0 : ℝ) < 1 + Real.exp (-x) := by positivity
  exact div_pos one_pos h

lemma sigmoid_lt_one (x : ℝ) : sigmoid x < 1 := by
  unfold sigmoid
  have h : (0 : ℝ) < 1 + Real.exp (-x) := by positivity
  rw [div_lt_one h]
  linarith [Real.exp_pos (-x)]

lemma range_map_sum {M : Type} [AddCommMonoid M] (n : Nat) (g : Nat → M) :
    ((List.range n).map g).sum = ∑ b ∈ Finset.range n, g b := rfl

lemma sum_countP_eq_length (f : ℚ → Nat) (bins : Nat) :
    ∀ (xs : List ℚ), (∀ v ∈ xs, f v < bins) →
      ((List.range bins).map (fun b => xs.countP (fun v => f v == b))).sum = xs.length := by
  intro xs
  induction xs with
  | nil => intro _; simp
  | cons a l ih =>
    intro h
    have ha : f a < bins := h a (List.mem_cons_self a l)
    have ihs := ih (fun v hv => h v (List.mem_cons_of_mem a hv))
    rw [range_map_sum] at ihs ⊢
    simp only [List.countP_cons]
    rw [Finset.sum_add_distrib, ihs]
    simp only [beq_iff_eq]
    rw [Finset.sum_ite_eq (Finset.range bins) (f a) (fun _ => 1)]
    simp [Finset.mem_range, ha]

lemma binIdx_lt (lo hi : ℚ) (bins : Nat) (hb : 0 < bins) (v : ℚ) :
    binIdx lo hi bins v < bins := by
  unfold binIdx
  exact lt_of_le_of_lt (min_le_left _ _) (Nat.sub_lt hb Nat.one_pos)

lemma histc_some_sum (bins : Nat) (hb : 0 < bins) (xs : List ℚ) (hx : xs ≠ []) :
    ∃ h, histc bins xs = some h ∧ h.sum = xs.length := by
  match xs, hx with
  | x :: rest, _ =>
    refine ⟨_, rfl, ?_⟩
    exact sum_countP_eq_length _ bins (x :: rest)
      (fun v _ => binIdx_lt _ _ bins hb v)

lemma mmScores_length (n1 n2 d : Nat) (A B : Nat → Nat → ℚ) :
    (mmScores n1 n2 d A B).length = n1 * n2 := by
  unfold mmScores
  rw [List.length_flatten, List.map_map]
  have hc : (List.length ∘ fun i : Nat =>
      (List.range n2).map (fun j => ∑ k ∈ Finset.range d, A i k * B k j)) =
      fun _ : Nat => n2 := by
    funext i
    simp
  rw [hc, List.map_const', List.sum_replicate, List.length_range, smul_eq_mul]

lemma map_div_sum (h : List Nat) (s : ℚ) :
    (h.map (fun c : Nat => (c : ℚ) / s)).sum = ((h.sum : ℚ)) / s := by
  induction h with
  | nil => simp
  | cons c t ih =>
    simp only [List.map_cons, List.sum_cons, ih, Nat.cast_add]
    rw [add_div]

lemma testLoop_nil (B : Nat) (i : Nat) (acc : TestAcc) : testLoop B i [] acc = acc := rfl

lemma testLoop_cons (B : Nat) (i : Nat) (p : ℚ × ℚ) (rest : List (ℚ × ℚ)) (acc : TestAcc) :
    testLoop B i (p :: rest) acc = testLoop B (i + 1) rest (testStep B acc i p.1 p.2) := rfl

lemma testStep_prec_lengths (B : Nat) (acc : TestAcc) (i : Nat) (gt pred : ℚ) :
    (testStep B acc i gt pred).prec10.length =
      acc.prec10.length + (if (i + 1) % B = 0 then 1 else 0) ∧
    (testStep B acc i gt pred).prec20.length =
      acc.prec20.length + (if (i + 1) % B = 0 then 1 else 0) := by
  unfold testStep
  by_cases hmod : (i + 1) % B = 0
  · simp [hmod]
  · simp [hmod]

lemma testLoop_prec_lengths (B : Nat) :
    ∀ (rest : List (ℚ × ℚ)) (i : Nat) (acc : TestAcc),
      acc.prec10.length = i / B → acc.prec20.length = i / B →
      (testLoop B i rest acc).prec10.length = (i + rest.length) / B ∧
      (testLoop B i rest acc).prec20.length = (i + rest.length) / B := by
  intro rest
  induction rest with
  | nil =>
    intro i acc h10 h20
    rw [testLoop_nil]
    constructor
    · simp [h10]
    · simp [h20]
  | cons p rest ih =>
    intro i acc h10 h20
    have hstep := testStep_prec_lengths B acc i p.1 p.2
    have hsucc : (i + 1) / B = i / B + (if (i + 1) % B = 0 then 1 else 0) := by
      rw [Nat.succ_div]
      by_cases hd : (i + 1) % B = 0
      · rw [if_pos hd, if_pos (Nat.dvd_of_mod_eq_zero hd)]
      · have hnd : ¬ B ∣ (i + 1) := fun hdvd => hd (by
          rcases hdvd with ⟨c, hc⟩
          rw [hc, Nat.mul_mod_right])
        rw [if_neg hd, if_neg hnd]
    have h10' : (testStep B acc i p.1 p.2).prec10.length = (i + 1) / B := by
      rw [hstep.1, h10, hsucc]
    have h20' : (testStep B acc i p.1 p.2).prec20.length = (i + 1) / B := by
      rw [hstep.2, h20, hsucc]
    have hrec := ih (i + 1) (testStep B acc i p.1 p.2) h10' h20'
    have harith : i + (rest.length + 1) = (i + 1) + rest.length := by omega
    rw [testLoop_cons]
    simp only [List.length_cons, harith]
    exact hrec

/-! ## Claims -/

/-- C1: the claim says the feature width computed at model construction is
2 * tensor_neurons only if the tensor network is enabled (else 0), plus
bins if histogram is enabled, plus 4 * hidden_size if node-graph-matching
is enabled; in particular 8 for the histogram-only configuration with 8
bins.  The code adds the 2 * tensor_neurons term unconditionally: at the
configuration with histogram enabled (8 bins), tensor network disabled,
tensor_neurons = 16, node-graph-matching disabled, the code computes
feature_count = 40 while the spec requires 8, which is exactly the width
of the fused vector forward actually builds there, so the first
fully-connected layer is mis-sized. -/
theorem c1_feature_width_bug :
    calculate_bottleneck_features
        { histogram := true, bins := 8, tensor_network := false, tensor_neurons := 16,
          attention_module := false, node_graph_matching := false, hidden_size := 16 } = 40 ∧
    specFeatureWidth
        { histogram := true, bins := 8, tensor_network := false, tensor_neurons := 16,
          attention_module := false, node_graph_matching := false, hidden_size := 16 } = 8 ∧
    forwardFusedWidth
        { histogram := true, bins := 8, tensor_network := false, tensor_neurons := 16,
          attention_module := false, node_graph_matching := false, hidden_size := 16 } =
      some 8 :=
  ⟨rfl, rfl, rfl⟩

/-- C2: one call of process_batch increments the zero-grad, backward and
optimizer-step counters by exactly one each, and returns as its loss the
plain sum of the per-pair mean-squared-error losses over the batch, not
divided by the batch size. -/
theorem c2_process_batch_semantics {Pair : Type} (target prediction : Pair → ℚ)
    (batch : List Pair) (log : OptimizerLog) :
    process_batch target prediction batch log =
      ({ zeroGradCalls := log.zeroGradCalls + 1,
         backwardCalls := log.backwardCalls + 1,
         stepCalls := log.stepCalls + 1 },
       (batch.map (fun p => mseLoss (target p) (prediction p))).sum) := by
  unfold process_batch
  dsimp only
  rw [foldl_add_eq_sum (fun p => mseLoss (target p) (prediction p)) batch 0, zero_add]

/-- C3 (amended): provided at least one validation error is strictly below
the initial sentinel min_error of 100, after all epochs the best checkpoint
holds the parameters of the first epoch achieving the minimum validation
error, and best_epoch_index equals the position of that first minimum. -/
theorem c3_best_checkpoint_argmin {P : Type} (paramsAt : Nat → P) (errors : List ℚ)
    (initFile : Option P) (h : ∃ e ∈ errors, e < 100) :
    (finalState paramsAt errors initFile).bestEpochIndex < errors.length ∧
    (finalState paramsAt errors initFile).bestFile =
      some (paramsAt (finalState paramsAt errors initFile).bestEpochIndex) ∧
    (finalState paramsAt errors initFile).minError =
      errors.getD (finalState paramsAt errors initFile).bestEpochIndex 0 ∧
    (∀ j, j < errors.length →
      errors.getD (finalState paramsAt errors initFile).bestEpochIndex 0 ≤ errors.getD j 0) ∧
    (∀ j, j < (finalState paramsAt errors initFile).bestEpochIndex →
      errors.getD (finalState paramsAt errors initFile).bestEpochIndex 0 < errors.getD j 0) := by
  unfold finalState
  obtain ⟨k, hklen, hidx, hfile, hmin, _, hle, hstrict⟩ :=
    runEpochs_first_argmin paramsAt errors 0 (initState initFile) h
  rw [Nat.zero_add] at hidx hfile
  rw [hidx]
  exact ⟨hklen, by rw [hfile], hmin, hle, hstrict⟩

/-- C3 counterexample: with validation errors 150 then 100, epoch 1
achieves the minimum, yet no checkpoint is ever written (both errors are at
least the sentinel 100) and best_epoch_index stays 0. -/
theorem c3_counterexample :
    (100 : ℚ) < 150 ∧
    (finalState (fun i : Nat => i) [(150 : ℚ), 100] none).bestEpochIndex = 0 ∧
    (finalState (fun i : Nat => i) [(150 : ℚ), 100] none).bestFile = none := by
  decide

/-- Witness for C3: with errors 3, 1, 2 the first minimum is at epoch 1
and its parameters are the ones checkpointed. -/
theorem c3_best_checkpoint_argmin_witness :
    (finalState (fun i : Nat => i) [(3 : ℚ), 1, 2] none).bestEpochIndex <
      [(3 : ℚ), 1, 2].length ∧
    (finalState (fun i : Nat => i) [(3 : ℚ), 1, 2] none).bestFile =
      some ((finalState (fun i : Nat => i) [(3 : ℚ), 1, 2] none).bestEpochIndex) ∧
    (finalState (fun i : Nat => i) [(3 : ℚ), 1, 2] none).minError =
      [(3 : ℚ), 1, 2].getD
        (finalState (fun i : Nat => i) [(3 : ℚ), 1, 2] none).bestEpochIndex 0 ∧
    (∀ j, j < [(3 : ℚ), 1, 2].length →
      [(3 : ℚ), 1, 2].getD
        (finalState (fun i : Nat => i) [(3 : ℚ), 1, 2] none).bestEpochIndex 0 ≤
        [(3 : ℚ), 1, 2].getD j 0) ∧
    (∀ j, j < (finalState (fun i : Nat => i) [(3 : ℚ), 1, 2] none).bestEpochIndex →
      [(3 : ℚ), 1, 2].getD
        (finalState (fun i : Nat => i) [(3 : ℚ), 1, 2] none).bestEpochIndex 0 <
        [(3 : ℚ), 1, 2].getD j 0) :=
  c3_best_checkpoint_argmin (fun i : Nat => i) [(3 : ℚ), 1, 2] none
    ⟨1, by decide, by decide⟩

/-- C4: whenever GraphSimTrainer.train with validation enabled returns, the
live model parameters equal the parameters stored in the best-validation
checkpoint file (the final torch.load round-trips the saved best state). -/
theorem c4_live_equals_checkpoint {P : Type} (paramsAt : Nat → P) (initParams : P)
    (errors : List ℚ) (initFile : Option P) (live : P) (st : TrainState P)
    (h : trainRun paramsAt initParams errors true initFile = Except.ok (live, st)) :
    st.bestFile = some live := by
  unfold trainRun at h
  rw [if_pos rfl] at h
  cases hb : (finalState paramsAt errors initFile).bestFile with
  | none => rw [hb] at h; simp at h
  | some p =>
    rw [hb] at h
    simp only [Except.ok.injEq, Prod.mk.injEq] at h
    obtain ⟨h1, h2⟩ := h
    subst h2
    rw [hb, h1]

/-- Witness for C4: a one-epoch run with error 2 saves the epoch-0
parameters and reloads them. -/
theorem c4_live_equals_checkpoint_witness :
    (finalState (fun i : Nat => i) [(2 : ℚ)] none).bestFile = some 0 :=
  c4_live_equals_checkpoint (fun i : Nat => i) 7 [(2 : ℚ)] none 0
    (finalState (fun i : Nat => i) [(2 : ℚ)] none) rfl

/-- C7: the regression head output, a sigmoid of a real number, lies
strictly between 0 and 1 for every finite input and every choice of layer
weights. -/
theorem c7_score_strictly_between (W1 : List (List ℝ)) (b1 : List ℝ) (w2 : List ℝ)
    (b2 : ℝ) (scores : List ℝ) :
    0 < graphSimScore W1 b1 w2 b2 scores ∧ graphSimScore W1 b1 w2 b2 scores < 1 :=
  ⟨sigmoid_pos _, sigmoid_lt_one _⟩

/-- C8: the epoch loss history is append-only: each validate call appends
exactly one entry whether or not the epoch is a new best, a full run over N
epochs produces exactly the list of the N errors in order, and running
further epochs only ever appends to the history already produced. -/
theorem c8_epoch_loss_append_only {P : Type} (paramsAt : Nat → P) :
    (∀ (i : Nat) (e : ℚ) (st : TrainState P),
      (validateStep paramsAt i e st).epochLossList = st.epochLossList ++ [e]) ∧
    (∀ (errors : List ℚ) (initFile : Option P),
      (finalState paramsAt errors initFile).epochLossList = errors) ∧
    (∀ (es1 es2 : List ℚ) (i : Nat) (st : TrainState P),
      (runEpochs paramsAt i (es1 ++ es2) st).epochLossList =
        (runEpochs paramsAt i es1 st).epochLossList ++ es2) := by
  refine ⟨validateStep_epochLossList paramsAt, ?_, ?_⟩
  · intro errors initFile
    unfold finalState
    rw [runEpochs_epochLossList]
    rfl
  · intro es1 es2 i st
    rw [runEpochs_epochLossList, runEpochs_epochLossList, List.append_assoc]

/-- C9 counterexample: the claim asserts the strict inequality for every
configuration with the tensor network disabled and the histogram enabled,
but at tensor_neurons = 0 the fused width built by forward equals
feature_count (both 8 here), so the fused vector is not strictly narrower
and the bottleneck layer precondition is not violated. -/
theorem c9_counterexample :
    forwardFusedWidth
        { histogram := true, bins := 8, tensor_network := false, tensor_neurons := 0,
          attention_module := false, node_graph_matching := false, hidden_size := 16 } =
      some 8 ∧
    calculate_bottleneck_features
        { histogram := true, bins := 8, tensor_network := false, tensor_neurons := 0,
          attention_module := false, node_graph_matching := false, hidden_size := 16 } = 8 ∧
    ¬ (8 < 8) :=
  ⟨rfl, rfl, by decide⟩

/-- C9 (amended): with the tensor network disabled, the histogram enabled
and a strictly positive tensor_neurons count, the fused vector built by
forward is strictly narrower than the feature_count used to size the first
fully connected layer, because feature_count adds the 2 * tensor_neurons
term unconditionally; at tensor_neurons = 0 the two widths coincide. -/
theorem c9_forward_width_mismatch (a : Args) (w : Nat) (hh : a.histogram = true)
    (ht : a.tensor_network = false) (hn : 0 < a.tensor_neurons)
    (hw : forwardFusedWidth a = some w) :
    w < calculate_bottleneck_features a := by
  cases hng : a.node_graph_matching with
  | false =>
    simp [forwardFusedWidth, ht, hh, hng] at hw
    simp [calculate_bottleneck_features, hh, hng]
    omega
  | true =>
    simp [forwardFusedWidth, ht, hh, hng] at hw
    simp [calculate_bottleneck_features, hh, hng]
    omega

/-- Witness for C9 at the histogram-only configuration with 8 bins and 16
tensor neurons. -/
theorem c9_forward_width_mismatch_witness :
    (8 : Nat) < calculate_bottleneck_features
      { histogram := true, bins := 8, tensor_network := false, tensor_neurons := 16,
        attention_module := false, node_graph_matching := false, hidden_size := 16 } :=
  c9_forward_width_mismatch
    { histogram := true, bins := 8, tensor_network := false, tensor_neurons := 16,
      attention_module := false, node_graph_matching := false, hidden_size := 16 }
    8 rfl rfl (by decide) rfl

/-- C10: if every validation error is at least the initial sentinel
min_error of 100, validate never writes a best checkpoint and
best_epoch_index stays 0, yet train still attempts to load from
best_model_path after the final epoch, which fails when no checkpoint file
exists. -/
theorem c10_sentinel_no_checkpoint {P : Type} (paramsAt : Nat → P) (initParams : P)
    (errors : List ℚ) (h : ∀ e ∈ errors, (100 : ℚ) ≤ e) :
    (finalState paramsAt errors (none : Option P)).bestFile = none ∧
    (finalState paramsAt errors (none : Option P)).bestEpochIndex = 0 ∧
    trainRun paramsAt initParams errors true none = Except.error () := by
  have hnu := runEpochs_no_update paramsAt errors 0 (initState (none : Option P)) h
  have hbf : (finalState paramsAt errors (none : Option P)).bestFile = none := by
    unfold finalState
    rw [hnu]
    rfl
  have hbi : (finalState paramsAt errors (none : Option P)).bestEpochIndex = 0 := by
    unfold finalState
    rw [hnu]
    rfl
  refine ⟨hbf, hbi, ?_⟩
  unfold trainRun
  rw [if_pos rfl, hbf]

/-- Witness for C10: two epochs with errors 100 and 200, neither below the
sentinel. -/
theorem c10_sentinel_no_checkpoint_witness :
    (finalState (fun i : Nat => i) [(100 : ℚ), 200] none).bestFile = none ∧
    (finalState (fun i : Nat => i) [(100 : ℚ), 200] none).bestEpochIndex = 0 ∧
    trainRun (fun i : Nat => i) 0 [(100 : ℚ), 200] true none = Except.error () :=
  c10_sentinel_no_checkpoint (fun i : Nat => i) 0 [(100 : ℚ), 200] (by decide)

/-- C5: the normalized histogram sums to 1 whenever both graphs have at
least one node (with a positive bin count), which confirms the first half
of the claim; but when either graph has zero nodes the inner-product matrix
is empty and the code reaches torch.histc, whose min/max reduction on an
empty tensor fails (and whose normalization would divide zero by zero),
instead of producing the all-zero vector the claim requires. -/
theorem c5_histogram_normalization :
    calculate_histogram 0 3 2 8 (fun _ _ => 0) (fun _ _ => 0) = none ∧
    (∀ (n1 n2 d bins : Nat) (A B : Nat → Nat → ℚ), 0 < n1 → 0 < n2 → 0 < bins →
      (calculate_histogram n1 n2 d bins A B).map List.sum = some 1) := by
  constructor
  · rfl
  · intro n1 n2 d bins A B h1 h2 hb
    have hlen := mmScores_length n1 n2 d A B
    have hne : mmScores n1 n2 d A B ≠ [] := by
      intro hcon
      rw [hcon] at hlen
      have := Nat.mul_pos h1 h2
      simp at hlen
      omega
    obtain ⟨h, hsome, hsum⟩ := histc_some_sum bins hb _ hne
    unfold calculate_histogram
    rw [hsome]
    show some ((h.map (fun c : Nat => (c : ℚ) / ((h.sum : ℚ)))).sum) = some 1
    have hnz : ((n1 * n2 : Nat) : ℚ) ≠ 0 :=
      Nat.cast_ne_zero.mpr (Nat.mul_pos h1 h2).ne'
    rw [map_div_sum, hsum, hlen, div_self hnz]

/-- Witness for C5: a pair of 2-node graphs with 1-dimensional all-ones
embeddings and 3 bins yields a histogram summing to 1. -/
theorem c5_histogram_normalization_witness :
    (calculate_histogram 2 2 1 3 (fun _ _ => 1) (fun _ _ => 1)).map List.sum = some 1 :=
  c5_histogram_normalization.2 2 2 1 3 (fun _ _ => 1) (fun _ _ => 1)
    (by decide) (by decide) (by decide)

/-- C6 (amended): with a positive number B of test query graphs, the test
loop runs to completion with no divisibility check, computing exactly
floor(total_test_pairs / B) precision-at-10 values and the same number of
precision-at-20 values; when the total is not evenly divisible the trailing
partial block is silently left in the buffers, not reported as a failure. -/
theorem c6_precision_block_count (pairs : List (ℚ × ℚ)) (B : Nat) (hB : 0 < B) :
    testRun B pairs = Except.ok (testLoop B 0 pairs initTestAcc) ∧
    (testLoop B 0 pairs initTestAcc).prec10.length = pairs.length / B ∧
    (testLoop B 0 pairs initTestAcc).prec20.length = pairs.length / B := by
  have hlens := testLoop_prec_lengths B pairs 0 initTestAcc
    (by simp [initTestAcc]) (by simp [initTestAcc])
  rw [Nat.zero_add] at hlens
  refine ⟨?_, hlens.1, hlens.2⟩
  unfold testRun
  rw [if_neg (Nat.pos_iff_ne_zero.mp hB)]

/-- C6 counterexample: 5 test pairs with 2 query graphs (5 not divisible
by 2): the run completes without any failure, produces 2 precision blocks,
and silently leaves the fifth pair in the block buffer. -/
theorem c6_counterexample :
    (5 : Nat) % 2 ≠ 0 ∧
    testRun 2 [((0 : ℚ), (0 : ℚ)), (0, 0), (0, 0), (0, 0), (0, 0)] =
      Except.ok (testLoop 2 0 [((0 : ℚ), (0 : ℚ)), (0, 0), (0, 0), (0, 0), (0, 0)]
        initTestAcc) ∧
    (testLoop 2 0 [((0 : ℚ), (0 : ℚ)), (0, 0), (0, 0), (0, 0), (0, 0)]
      initTestAcc).prec10.length = 2 ∧
    (testLoop 2 0 [((0 : ℚ), (0 : ℚ)), (0, 0), (0, 0), (0, 0), (0, 0)]
      initTestAcc).tempGT.length = 1 := by
  refine ⟨by decide, rfl, by decide, by decide⟩

/-- Witness for C6: 4 test pairs with 2 query graphs give exactly 2
precision-at-10 and 2 precision-at-20 blocks. -/
theorem c6_precision_block_count_witness :
    testRun 2 [((0 : ℚ), (0 : ℚ)), (0, 0), (0, 0), (0, 0)] =
      Except.ok (testLoop 2 0 [((0 : ℚ), (0 : ℚ)), (0, 0), (0, 0), (0, 0)] initTestAcc) ∧
    (testLoop 2 0 [((0 : ℚ), (0 : ℚ)), (0, 0), (0, 0), (0, 0)] initTestAcc).prec10.length =
      [((0 : ℚ), (0 : ℚ)), (0, 0), (0, 0), (0, 0)].length / 2 ∧
    (testLoop 2 0 [((0 : ℚ), (0 : ℚ)), (0, 0), (0, 0), (0, 0)] initTestAcc).prec20.length =
      [((0 : ℚ), (0 : ℚ)), (0, 0), (0, 0), (0, 0)].length / 2 :=
  c6_precision_block_count [((0 : ℚ), (0 : ℚ)), (0, 0), (0, 0), (0, 0)] 2 (by decide)

end DGEDSIM
